import Mathlib

/-!
Verification development for the client-side ballot session state machine of
the student-council voting application.

The embedding follows the source component `BallotContainer` (file
`src/unnamed/part_000`): a React function component driven by the
single-threaded browser event loop.  The component's handlers close over the
state bindings of the render in which they were created; state updates created
with `setX(value)` replace the current state, while functional updates
`setX(prev => f prev)` read the state current at execution time.  The
embedding therefore models each scheduled continuation (timer callbacks and
the promise rejection handler) together with the state snapshot its closure
captured at creation time, and models the event loop as a small-step machine
consuming pending continuations in an arbitrary order.

Maps `Record<string, string>` / `Record<string, boolean>` are embedded as
functions `String → Option String` / `String → Bool` (a missing key is `none`
respectively `false`, matching JavaScript truthiness of `undefined` for the
uses in the source).
-/

namespace VoteApp

/-- Candidate record (source lines 9-16).  The source field `class` is a Lean
keyword and is embedded as `class_`. -/
structure Candidate where
  id : String
  name : String
  email : String
  photo : Option String
  class_ : String
  stream : String

/-- Position record (source lines 18-23). -/
structure Position where
  id : String
  title : String
  description : String
  candidates : List Candidate

/-- JavaScript object spread update `{ ...m, [k]: v }` on a string-keyed
record of strings. -/
def upd (m : String → Option String) (k v : String) : String → Option String :=
  fun x => if x = k then some v else m x

/-- JavaScript object spread update `{ ...m, [k]: b }` on a string-keyed
record of booleans. -/
def updB (m : String → Bool) (k : String) (b : Bool) : String → Bool :=
  fun x => if x = k then b else m x

/-- The React state of `BallotContainer` (source lines 36-41). -/
structure BallotState where
  currentPositionIndex : Nat
  selections : String → Option String
  locked : String → Bool
  isExiting : Bool
  showReview : Bool
  showSuccess : Bool

/-- An in-flight `onVotePosition` call together with the state bindings its
rejection handler closed over: the `catch` callback of source lines 83-89
reads `locked`, `selections` and `currentPosition.id` from the render in
which `handleSelectCandidate` ran, i.e. the values from before the optimistic
update. -/
structure PendingSub where
  posId : String
  candId : String
  staleSelections : String → Option String
  staleLocked : String → Bool

/-- A scheduled 1500 ms auto-advance timeout (source lines 92-101) with the
render bindings its closure captured: `currentPositionIndex`, and (via the
captured `handleFinalSubmit`) `selections` — again the values from before the
optimistic update of the selection that scheduled it. -/
structure PendingAdvance where
  staleIndex : Nat
  staleSelections : String → Option String

/-- The whole event-loop configuration: component state plus all pending
continuations and the externally observable interaction history. -/
structure Machine where
  st : BallotState
  /-- unresolved `onVotePosition` promises -/
  pendingSubs : List PendingSub
  /-- scheduled 1500 ms auto-advance timers -/
  pendingAdv : List PendingAdvance
  /-- scheduled 400 ms timers from `advanceToNext` (source lines 104-111) -/
  pendingExit : Nat
  /-- scheduled 800 ms timers leading to `handleFinalSubmit`, carrying the
  `selections` binding captured by the scheduling render -/
  pendingFinal : List (String → Option String)
  /-- scheduled 2000 ms timers inside `handleFinalSubmit` (source 117-120) -/
  pendingComplete : List (String → Option String)
  /-- history of `onVotePosition(positionId, candidateId)` invocations -/
  submitCalls : List (String × String)
  /-- history of `onVoteComplete(votes)` invocations -/
  completions : List (String → Option String)
  /-- number of `alert(...)` calls shown to the user (source line 88) -/
  alerts : Nat
  /-- the `sessionStorage` flag `voteSubmitted` (source line 118) -/
  voteSubmitted : Bool

/-- Initial mount: all maps empty, index 0, no pending work (source 36-41). -/
def initMachine : Machine :=
  { st := { currentPositionIndex := 0
            selections := fun _ => none
            locked := fun _ => false
            isExiting := false
            showReview := false
            showSuccess := false }
    pendingSubs := []
    pendingAdv := []
    pendingExit := 0
    pendingFinal := []
    pendingComplete := []
    submitCalls := []
    completions := []
    alerts := 0
    voteSubmitted := false }

/-- `handleSelectCandidate(candidateId)`, synchronous part (source 72-102).
If the current position is locked the handler returns immediately.  Otherwise
it optimistically writes the selection and the lock, fires the background
`onVotePosition` call (whose catch handler captures the pre-update bindings),
and schedules the 1500 ms auto-advance timer (whose closure captures the
pre-update `currentPositionIndex` and, through `handleFinalSubmit`, the
pre-update `selections`).  When `positions[currentPositionIndex]` does not
exist the UI never renders the ballot, so the handler cannot fire; the
embedding makes that case a no-op. -/
def selectStep (positions : List Position) (m : Machine) (c : String) : Machine :=
  match positions[m.st.currentPositionIndex]? with
  | none => m
  | some p =>
    if m.st.locked p.id then m
    else
      { m with
        st := { m.st with
                selections := upd m.st.selections p.id c
                locked := updB m.st.locked p.id true }
        pendingSubs := m.pendingSubs ++ [⟨p.id, c, m.st.selections, m.st.locked⟩]
        submitCalls := m.submitCalls ++ [(p.id, c)]
        pendingAdv := m.pendingAdv ++ [⟨m.st.currentPositionIndex, m.st.selections⟩] }

/-- Resolution of the `k`-th in-flight submission with success: the source
attaches no fulfillment handler, so the promise simply leaves the in-flight
set. -/
def subOkStep (m : Machine) (k : Nat) : Machine :=
  match m.pendingSubs[k]? with
  | none => m
  | some _ => { m with pendingSubs := m.pendingSubs.eraseIdx k }

/-- Rejection of the `k`-th in-flight submission: the `catch` handler of
source lines 83-89 runs `setLocked({ ...locked, [currentPosition.id]: false })`
and `setSelections({ ...selections })` using the stale bindings captured at
call time, then shows an alert. -/
def subFailStep (m : Machine) (k : Nat) : Machine :=
  match m.pendingSubs[k]? with
  | none => m
  | some ps =>
    { m with
      st := { m.st with
              locked := updB ps.staleLocked ps.posId false
              selections := ps.staleSelections }
      pendingSubs := m.pendingSubs.eraseIdx k
      alerts := m.alerts + 1 }

/-- Firing of the `k`-th scheduled 1500 ms timer (source 92-101): with the
captured index `i`, if `i < totalPositions - 1` it runs `advanceToNext`
(sets `isExiting` and schedules the 400 ms timer), otherwise it schedules the
800 ms timer towards `handleFinalSubmit`, propagating the captured
`selections` binding. -/
def advFireStep (positions : List Position) (m : Machine) (k : Nat) : Machine :=
  match m.pendingAdv[k]? with
  | none => m
  | some pa =>
    if pa.staleIndex < positions.length - 1 then
      { m with
        st := { m.st with isExiting := true }
        pendingAdv := m.pendingAdv.eraseIdx k
        pendingExit := m.pendingExit + 1 }
    else
      { m with
        pendingAdv := m.pendingAdv.eraseIdx k
        pendingFinal := m.pendingFinal ++ [pa.staleSelections] }

/-- Firing of a 400 ms timer inside `advanceToNext` (source 107-110):
`setCurrentPositionIndex(prev => prev + 1)` is a functional update, so it
increments the index current at execution time, and `isExiting` is reset. -/
def exitFireStep (m : Machine) : Machine :=
  if m.pendingExit = 0 then m
  else
    { m with
      st := { m.st with
              currentPositionIndex := m.st.currentPositionIndex + 1
              isExiting := false }
      pendingExit := m.pendingExit - 1 }

/-- Firing of the `k`-th scheduled 800 ms timer: it calls `handleFinalSubmit`
(source 113-121) from the render that scheduled it: confetti (pure visual,
not modelled), `setShowSuccess(true)`, and scheduling of the 2000 ms timer
that carries the same captured `selections` binding. -/
def finalFireStep (m : Machine) (k : Nat) : Machine :=
  match m.pendingFinal[k]? with
  | none => m
  | some sels =>
    { m with
      st := { m.st with showSuccess := true }
      pendingFinal := m.pendingFinal.eraseIdx k
      pendingComplete := m.pendingComplete ++ [sels] }

/-- Firing of the `k`-th scheduled 2000 ms timer (source 117-120): sets the
`voteSubmitted` storage flag and invokes `onVoteComplete` with the captured
`selections` binding. -/
def completeFireStep (m : Machine) (k : Nat) : Machine :=
  match m.pendingComplete[k]? with
  | none => m
  | some sels =>
    { m with
      pendingComplete := m.pendingComplete.eraseIdx k
      completions := m.completions ++ [sels]
      voteSubmitted := true }

/-- Events consumable by the event loop. -/
inductive Event where
  | select (c : String)
  | subOk (k : Nat)
  | subFail (k : Nat)
  | advFire (k : Nat)
  | exitFire
  | finalFire (k : Nat)
  | completeFire (k : Nat)

/-- One event-loop step. -/
def step (positions : List Position) (m : Machine) (e : Event) : Machine :=
  match e with
  | .select c => selectStep positions m c
  | .subOk k => subOkStep m k
  | .subFail k => subFailStep m k
  | .advFire k => advFireStep positions m k
  | .exitFire => exitFireStep m
  | .finalFire k => finalFireStep m k
  | .completeFire k => completeFireStep m k

/-- Run a list of events from the initial mount. -/
def runTrace (positions : List Position) (evs : List Event) : Machine :=
  evs.foldl (step positions) initMachine

/-- Machines reachable from a fresh mount by event-loop steps. -/
inductive Reachable (positions : List Position) : Machine → Prop where
  | init : Reachable positions initMachine
  | next {m : Machine} (e : Event) :
      Reachable positions m → Reachable positions (step positions m e)

/-! ### Concrete fixtures used by trace evaluations and witnesses -/

def candA : Candidate := ⟨"cA", "Alice", "alice@school.ug", none, "S4", "East"⟩

def candB : Candidate := ⟨"cB", "Bob", "bob@school.ug", none, "S4", "West"⟩

def pos0 : Position := ⟨"p0", "President", "Leads the council", [candA, candB]⟩

def pos1 : Position := ⟨"p1", "Secretary", "Keeps the minutes", [candA, candB]⟩

def pos2 : Position := ⟨"p2", "Treasurer", "Handles the funds", [candA, candB]⟩

def onePos : List Position := [pos0]

def twoPos : List Position := [pos0, pos1]

/-! ### Session invariant

Starting from a fresh mount, the selection map and the lock map always agree
key by key (a position has a selection exactly when it is locked), and every
in-flight submission carries a snapshot that also agrees key by key and in
which the submitted position was not yet locked (the handler's guard had just
passed). -/

/-- A selection map and a lock map agree key by key. -/
def ConsistentPair (sel : String → Option String) (lk : String → Bool) : Prop :=
  ∀ q, (sel q).isSome = lk q

/-- Machine invariant: the live pair is consistent and every in-flight
submission snapshot is consistent with its position unlocked. -/
def Inv (m : Machine) : Prop :=
  ConsistentPair m.st.selections m.st.locked ∧
  ∀ ps ∈ m.pendingSubs,
    ConsistentPair ps.staleSelections ps.staleLocked ∧ ps.staleLocked ps.posId = false

theorem inv_step (positions : List Position) (m : Machine) (e : Event)
    (h : Inv m) : Inv (step positions m e) := by
  obtain ⟨hpair, hpend⟩ := h
  cases e with
  | select c =>
    simp only [step, selectStep]
    cases hg : positions[m.st.currentPositionIndex]? with
    | none => exact ⟨hpair, hpend⟩
    | some p =>
      by_cases hl : m.st.locked p.id = true
      · simp only [hl, if_true]
        exact ⟨hpair, hpend⟩
      · simp only [hl, if_false, Bool.false_eq_true]
        refine ⟨?_, ?_⟩
        · intro q
          by_cases hq : q = p.id <;>
            simp [upd, updB, hq, hpair q]
        · intro ps hps
          rcases List.mem_append.mp hps with h1 | h2
          · exact hpend ps h1
          · have h2' : ps = ⟨p.id, c, m.st.selections, m.st.locked⟩ := by
              simpa using h2
            subst h2'
            exact ⟨hpair, by simpa using hl⟩
  | subOk k =>
    simp only [step, subOkStep]
    cases hg : m.pendingSubs[k]? with
    | none => exact ⟨hpair, hpend⟩
    | some ps =>
      exact ⟨hpair, fun ps2 h2 => hpend ps2 (List.mem_of_mem_eraseIdx h2)⟩
  | subFail k =>
    simp only [step, subFailStep]
    cases hg : m.pendingSubs[k]? with
    | none => exact ⟨hpair, hpend⟩
    | some ps =>
      obtain ⟨hcons, hlk⟩ := hpend ps (List.getElem?_mem hg)
      refine ⟨?_, ?_⟩
      · intro q
        by_cases hq : q = ps.posId
        · simp [updB, hq, hcons ps.posId, hlk]
        · simp [updB, hq, hcons q]
      · intro ps2 h2
        exact hpend ps2 (List.mem_of_mem_eraseIdx h2)
  | advFire k =>
    simp only [step, advFireStep]
    cases hg : m.pendingAdv[k]? with
    | none => exact ⟨hpair, hpend⟩
    | some pa =>
      dsimp only
      by_cases hc : pa.staleIndex < positions.length - 1
      · rw [if_pos hc]; exact ⟨hpair, hpend⟩
      · rw [if_neg hc]; exact ⟨hpair, hpend⟩
  | exitFire =>
    simp only [step, exitFireStep]
    by_cases hc : m.pendingExit = 0
    · rw [if_pos hc]; exact ⟨hpair, hpend⟩
    · rw [if_neg hc]; exact ⟨hpair, hpend⟩
  | finalFire k =>
    simp only [step, finalFireStep]
    cases hg : m.pendingFinal[k]? with
    | none => exact ⟨hpair, hpend⟩
    | some sels => exact ⟨hpair, hpend⟩
  | completeFire k =>
    simp only [step, completeFireStep]
    cases hg : m.pendingComplete[k]? with
    | none => exact ⟨hpair, hpend⟩
    | some sels => exact ⟨hpair, hpend⟩

theorem reachable_inv (positions : List Position) (m : Machine)
    (h : Reachable positions m) : Inv m := by
  induction h with
  | init =>
    refine ⟨fun q => rfl, ?_⟩
    intro ps hps
    simp [initMachine] at hps
  | next e hr ih => exact inv_step _ _ _ ih

/-! ### Claim theorems for the ballot machine -/

/-- C4: for every accepted `SelectCandidate` transition (current position
exists and is not locked), the selection map entry is set to the chosen
candidate and the lock map entry is set to `true` synchronously, within the
same step; exactly one `onVotePosition` call is issued for the transition and
it is still unresolved (appended to the in-flight list) when the step ends,
i.e. the lock is in place before the submission resolves. -/
theorem select_locks_optimistically (positions : List Position) (m : Machine)
    (p : Position) (c : String)
    (hp : positions[m.st.currentPositionIndex]? = some p)
    (hnl : m.st.locked p.id = false) :
    (step positions m (Event.select c)).st.selections p.id = some c ∧
    (step positions m (Event.select c)).st.locked p.id = true ∧
    (step positions m (Event.select c)).submitCalls = m.submitCalls ++ [(p.id, c)] ∧
    (step positions m (Event.select c)).pendingSubs
      = m.pendingSubs ++ [⟨p.id, c, m.st.selections, m.st.locked⟩] := by
  simp [step, selectStep, hp, hnl, upd, updB]

/-- Witness for C4: fresh machine over one position, candidate `cA`. -/
theorem select_locks_optimistically_witness :
    (step onePos initMachine (Event.select "cA")).st.selections "p0" = some "cA" ∧
    (step onePos initMachine (Event.select "cA")).st.locked "p0" = true ∧
    (step onePos initMachine (Event.select "cA")).submitCalls
      = initMachine.submitCalls ++ [("p0", "cA")] ∧
    (step onePos initMachine (Event.select "cA")).pendingSubs
      = initMachine.pendingSubs
        ++ [⟨"p0", "cA", initMachine.st.selections, initMachine.st.locked⟩] :=
  select_locks_optimistically onePos initMachine pos0 "cA" rfl rfl

/-- C5: a `SelectCandidate` call while the current position is already locked
is a complete no-op: the machine (selection map, lock map, position index,
pending work, interaction history) is unchanged and no new submission call is
issued. -/
theorem select_noop_when_locked (positions : List Position) (m : Machine)
    (p : Position) (c : String)
    (hp : positions[m.st.currentPositionIndex]? = some p)
    (hl : m.st.locked p.id = true) :
    step positions m (Event.select c) = m := by
  simp [step, selectStep, hp, hl]

/-- Witness for C5: after selecting `cA` for the single position, a second
select of `cB` leaves the machine unchanged. -/
theorem select_noop_when_locked_witness :
    step onePos (runTrace onePos [Event.select "cA"]) (Event.select "cB")
      = runTrace onePos [Event.select "cA"] :=
  select_noop_when_locked onePos (runTrace onePos [Event.select "cA"]) pos0 "cB"
    rfl rfl

/-- C2: in every reachable machine, when the `k`-th in-flight submission (for
position `ps.posId`) fails, the rollback leaves that position's lock entry
`false` and its selection entry absent — regardless of how far the machine
has advanced — and one more alert is shown to the user. -/
theorem rollback_clears_failed_position (positions : List Position)
    (m : Machine) (k : Nat) (ps : PendingSub)
    (hreach : Reachable positions m)
    (hk : m.pendingSubs[k]? = some ps) :
    (step positions m (Event.subFail k)).st.locked ps.posId = false ∧
    (step positions m (Event.subFail k)).st.selections ps.posId = none ∧
    (step positions m (Event.subFail k)).alerts = m.alerts + 1 := by
  obtain ⟨hpair, hpend⟩ := reachable_inv positions m hreach
  obtain ⟨hcons, hlk⟩ := hpend ps (List.getElem?_mem hk)
  have hsel : ps.staleSelections ps.posId = none := by
    have h1 := hcons ps.posId
    rw [hlk] at h1
    exact Option.not_isSome_iff_eq_none.mp (by simp [h1])
  refine ⟨?_, ?_, ?_⟩ <;> simp [step, subFailStep, hk, updB, hsel]

/-- Witness for C2: one position, select `cA`, then the submission fails. -/
theorem rollback_clears_failed_position_witness :
    (step onePos (runTrace onePos [Event.select "cA"]) (Event.subFail 0)).st.locked "p0"
        = false ∧
    (step onePos (runTrace onePos [Event.select "cA"]) (Event.subFail 0)).st.selections "p0"
        = none ∧
    (step onePos (runTrace onePos [Event.select "cA"]) (Event.subFail 0)).alerts
        = (runTrace onePos [Event.select "cA"]).alerts + 1 :=
  rollback_clears_failed_position onePos (runTrace onePos [Event.select "cA"]) 0
    ⟨"p0", "cA", fun _ => none, fun _ => false⟩
    (Reachable.next (Event.select "cA") Reachable.init) rfl

/-- C8: no event-loop step ever decreases the position index or moves it by
more than one; the index changes only when a pending `advanceToNext` 400 ms
timer fires, and then by exactly `+1`. -/
theorem index_advances_by_exactly_one (positions : List Position) (m : Machine)
    (e : Event) :
    (step positions m e).st.currentPositionIndex = m.st.currentPositionIndex ∨
    ((step positions m e).st.currentPositionIndex = m.st.currentPositionIndex + 1 ∧
      e = Event.exitFire ∧ m.pendingExit ≠ 0) := by
  cases e with
  | select c =>
    left
    simp only [step, selectStep]
    cases hg : positions[m.st.currentPositionIndex]? with
    | none => rfl
    | some p =>
      dsimp only
      by_cases hl : m.st.locked p.id = true
      · rw [if_pos hl]
      · rw [if_neg hl]
  | subOk k =>
    left
    simp only [step, subOkStep]
    cases hg : m.pendingSubs[k]? with
    | none => rfl
    | some ps => rfl
  | subFail k =>
    left
    simp only [step, subFailStep]
    cases hg : m.pendingSubs[k]? with
    | none => rfl
    | some ps => rfl
  | advFire k =>
    left
    simp only [step, advFireStep]
    cases hg : m.pendingAdv[k]? with
    | none => rfl
    | some pa =>
      dsimp only
      by_cases hc : pa.staleIndex < positions.length - 1
      · rw [if_pos hc]
      · rw [if_neg hc]
  | exitFire =>
    by_cases hc : m.pendingExit = 0
    · left
      simp only [step, exitFireStep]
      rw [if_pos hc]
    · right
      refine ⟨?_, rfl, hc⟩
      simp only [step, exitFireStep]
      rw [if_neg hc]
  | finalFire k =>
    left
    simp only [step, finalFireStep]
    cases hg : m.pendingFinal[k]? with
    | none => rfl
    | some sels => rfl
  | completeFire k =>
    left
    simp only [step, completeFireStep]
    cases hg : m.pendingComplete[k]? with
    | none => rfl
    | some sels => rfl

/-! ### Trace evaluations: completion behaviour -/

/-- The full happy-path session over the single position `p0`: the user
selects `cA`, then the 1500 ms, 800 ms and 2000 ms timers fire in order. -/
def happyTraceOnePos : Machine :=
  runTrace onePos
    [Event.select "cA", Event.advFire 0, Event.finalFire 0, Event.completeFire 0]

/-- C1 (evaluated at the failing input): over a non-empty position list, the
completion callback is indeed invoked exactly once at the end of the happy
path, but its argument is NOT the final selection map: `handleFinalSubmit`
was captured by the render that ran before the last optimistic update, so the
map it passes to `onVoteComplete` lacks the entry for the last position even
though the live state holds that entry.  For one position and candidate `cA`,
the callback receives a map with no entry for `p0` while the state maps
`p0 ↦ cA`. -/
theorem completion_callback_misses_last_selection :
    happyTraceOnePos.completions.length = 1 ∧
    (happyTraceOnePos.completions.headD (fun _ => none)) "p0" = none ∧
    happyTraceOnePos.st.selections "p0" = some "cA" ∧
    happyTraceOnePos.voteSubmitted = true := by
  decide

/-- Two-position session advanced past position 0: select `cA` for `p0`,
auto-advance, then select `cB` for `p1`, with `p0`'s submission still in
flight. -/
def advancedTraceTwoPos : Machine :=
  runTrace twoPos [Event.select "cA", Event.advFire 0, Event.exitFire, Event.select "cB"]

/-- C3 (evaluated at the failing input): when `p0`'s submission fails after
the machine has advanced and locked `p1`, the rollback handler reinstates the
stale maps it captured before `p0`'s selection, erasing `p1`'s selection and
lock as collateral: before the failure `p1 ↦ cB` and `p1` is locked; after
the failure both entries for `p1` are gone, contradicting the frame property
that only `p0`'s entries change. -/
theorem rollback_erases_later_position :
    advancedTraceTwoPos.st.selections "p1" = some "cB" ∧
    advancedTraceTwoPos.st.locked "p1" = true ∧
    (step twoPos advancedTraceTwoPos (Event.subFail 0)).st.selections "p1" = none ∧
    (step twoPos advancedTraceTwoPos (Event.subFail 0)).st.locked "p1" = false ∧
    (step twoPos advancedTraceTwoPos (Event.subFail 0)).st.selections "p0" = none ∧
    (step twoPos advancedTraceTwoPos (Event.subFail 0)).st.locked "p0" = false := by
  decide

/-- Two-position session in which `p0`'s submission fails (and is never
re-made) before the auto-advance, after which the user selects `cB` for the
last position `p1` and all timers run. -/
def rolledBackCompletionTrace : Machine :=
  runTrace twoPos
    [Event.select "cA", Event.subFail 0, Event.advFire 0, Event.exitFire,
      Event.select "cB", Event.advFire 0, Event.finalFire 0, Event.completeFire 0]

/-- C10: the review-then-final-submission sequence is triggered purely by the
captured position index being the last one; no completeness check is made.
With `p0`'s selection rolled back by a submission failure and never re-made,
selecting a candidate on the last position still drives the machine to
completion: the completion callback fires (exactly once here), the
`voteSubmitted` flag is set, while the final state has no selection and no
lock for `p0`, and the map passed to the callback has no entry for `p0`. -/
theorem completion_fires_despite_rolled_back_selection :
    rolledBackCompletionTrace.completions.length = 1 ∧
    rolledBackCompletionTrace.st.selections "p0" = none ∧
    rolledBackCompletionTrace.st.locked "p0" = false ∧
    (rolledBackCompletionTrace.completions.headD (fun _ => none)) "p0" = none ∧
    rolledBackCompletionTrace.voteSubmitted = true := by
  decide

/-! ### Session restore (source lines 47-65)

The restore effect reads `sessionStorage.getItem('ballotData')`, and inside a
`try` block parses it with the platform's `JSON.parse`, pushes
`data.selections || {}` and `data.locked || {}` into component state, and
computes the resume index with
`positions.findIndex(pos => !data.selections[pos.id])`; any exception thrown
inside the block is caught and only logged.  `JSON.parse` is a browser
builtin, so the embedding takes its outcome as the input: `none` for "no
stored item (or an empty string, which the `if (savedData)` guard also
skips)", `some none` for "stored item present but `JSON.parse` threw", and
`some (some v)` for "parsed to the JSON value `v`".  JSON numbers are
modelled as integers; none of the restore logic inspects numeric values
beyond truthiness. -/

/-- A JavaScript value produced by `JSON.parse`. -/
inductive JsVal where
  | jnull
  | jbool (b : Bool)
  | jnum (n : Int)
  | jstr (s : String)
  | jarr (elems : List JsVal)
  | jobj (fields : List (String × JsVal))

/-- First-match field lookup in an object literal. -/
def jsLookup (fields : List (String × JsVal)) (k : String) : Option JsVal :=
  match fields with
  | [] => none
  | (k2, v) :: rest => if k2 = k then some v else jsLookup rest k

/-- JavaScript truthiness of a possibly-undefined value (`none` stands for
`undefined`). -/
def jsTruthy : Option JsVal → Bool
  | none => false
  | some .jnull => false
  | some (.jbool b) => b
  | some (.jnum n) => n != 0
  | some (.jstr s) => s ≠ ""
  | some (.jarr _) => true
  | some (.jobj _) => true

/-- JavaScript property access `v[k]` on a defined value: throws a
`TypeError` on `null`, yields the field on objects, and `undefined` on other
values (primitives are boxed; the string-keyed properties of strings and
arrays other than element fields are irrelevant to the keys used here). -/
def jsMember : JsVal → String → Except Unit (Option JsVal)
  | .jnull, _ => .error ()
  | .jobj fields, k => .ok (jsLookup fields k)
  | _, _ => .ok none

/-- JavaScript property access `v[k]` where `v` itself may be `undefined`
(accessing a property of `undefined` throws a `TypeError`). -/
def jsMemberOpt : Option JsVal → String → Except Unit (Option JsVal)
  | none, _ => .error ()
  | some v, k => jsMember v k

/-- `positions.findIndex(pos => !data.selections[pos.id])` where the selector
may throw: returns the first index whose selection entry is falsy, `none`
when every position has a truthy entry (`findIndex` = -1). -/
def findUnvoted (selVal : Option JsVal) : List Position → Except Unit (Option Nat)
  | [] => .ok none
  | p :: rest =>
    match jsMemberOpt selVal p.id with
    | .error e => .error e
    | .ok v =>
      if !(jsTruthy v) then .ok (some 0)
      else
        match findUnvoted selVal rest with
        | .error e => .error e
        | .ok r => .ok (r.map (· + 1))

/-- `Object.keys(v).length`: throws on `undefined` and `null`, counts the
distinct keys of an object, the characters of a string, the elements of an
array, and is 0 on other primitives (ES2015 coercion). -/
def jsKeysLength : Option JsVal → Except Unit Nat
  | none => .error ()
  | some .jnull => .error ()
  | some (.jobj fields) => .ok ((fields.map Prod.fst).eraseDups).length
  | some (.jstr s) => .ok s.length
  | some (.jarr elems) => .ok elems.length
  | some _ => .ok 0

/-- The observable effects of the restore block: the arguments passed to
`setSelections` / `setLocked` / `setCurrentPositionIndex` (or `none` when the
setter was not reached), whether `setShowReview(true)` ran, and whether an
exception was thrown and caught (`console.error` only). -/
structure RestoreResult where
  selectionsSet : Option JsVal
  lockedSet : Option JsVal
  indexSet : Option Nat
  reviewSet : Bool
  threw : Bool

/-- The restore effect of source lines 47-65.  Effects performed before a
throw remain performed: the `catch` only logs. -/
def restoreEffect (positions : List Position) (saved : Option (Option JsVal)) :
    RestoreResult :=
  match saved with
  | none => ⟨none, none, none, false, false⟩
  | some none => ⟨none, none, none, false, true⟩
  | some (some data) =>
    match jsMember data "selections" with
    | .error _ => ⟨none, none, none, false, true⟩
    | .ok selVal =>
      let selStore := if jsTruthy selVal then selVal.getD (JsVal.jobj []) else JsVal.jobj []
      match jsMember data "locked" with
      | .error _ => ⟨some selStore, none, none, false, true⟩
      | .ok lockVal =>
        let lockStore :=
          if jsTruthy lockVal then lockVal.getD (JsVal.jobj []) else JsVal.jobj []
        match findUnvoted selVal positions with
        | .error _ => ⟨some selStore, some lockStore, none, false, true⟩
        | .ok (some i) => ⟨some selStore, some lockStore, some i, false, false⟩
        | .ok none =>
          match jsKeysLength selVal with
          | .error _ => ⟨some selStore, some lockStore, none, false, true⟩
          | .ok len =>
            if len = positions.length then
              ⟨some selStore, some lockStore, none, true, false⟩
            else
              ⟨some selStore, some lockStore, none, false, false⟩

/-- First index of a position without a truthy selection entry in an object
snapshot, written directly from the specification's words ("resumes at the
first position lacking a selection"). -/
def specFirstUnvoted (smap : List (String × JsVal)) : List Position → Option Nat
  | [] => none
  | p :: rest =>
    if jsTruthy (jsLookup smap p.id) then (specFirstUnvoted smap rest).map (· + 1)
    else some 0

theorem findUnvoted_obj (smap : List (String × JsVal)) (ps : List Position) :
    findUnvoted (some (JsVal.jobj smap)) ps = .ok (specFirstUnvoted smap ps) := by
  induction ps with
  | nil => rfl
  | cons p rest ih =>
    simp only [findUnvoted, jsMemberOpt, jsMember, specFirstUnvoted]
    by_cases hc : jsTruthy (jsLookup smap p.id) = true
    · simp [hc, ih]
    · simp [hc]

/-! ### Claim theorems for the restore effect -/

/-- C7 amended part: the restore effect is a total function (every exception
raised inside the `try` block is caught, visible only as the `threw` flag and
a log line), and when there is no stored item, or the stored item fails
`JSON.parse`, no state setter runs at all — exactly the no-snapshot
behaviour. -/
theorem restore_never_throws_and_parse_failure_is_no_snapshot
    (positions : List Position) :
    restoreEffect positions none = ⟨none, none, none, false, false⟩ ∧
    restoreEffect positions (some none) = ⟨none, none, none, false, true⟩ :=
  ⟨rfl, rfl⟩

/-- A stored snapshot that parses but has no `selections` field. -/
def malformedSnap : JsVal := JsVal.jobj [("locked", JsVal.jobj [("p0", JsVal.jbool true)])]

/-- C7 counterexample: a parseable but malformed snapshot does NOT degrade to
the no-snapshot behaviour.  With `{"locked": {"p0": true}}` the restore block
runs `setSelections({})` and `setLocked({p0: true})` before
`data.selections[pos.id]` throws (caught, logged): the lock map is restored
while under no-snapshot behaviour `setLocked` never runs, so the session does
not proceed as if no snapshot existed. -/
theorem restore_malformed_keeps_applied_effects :
    (restoreEffect onePos (some (some malformedSnap))).lockedSet
        = some (JsVal.jobj [("p0", JsVal.jbool true)]) ∧
    (restoreEffect onePos (some (some malformedSnap))).selectionsSet
        = some (JsVal.jobj []) ∧
    (restoreEffect onePos (some (some malformedSnap))).threw = true ∧
    (restoreEffect onePos none).lockedSet = none ∧
    (restoreEffect onePos none).selectionsSet = none :=
  ⟨rfl, rfl, rfl, rfl, rfl⟩

/-- C6 amended: for a restored snapshot whose `selections` field is an
object, the block never throws; if some position lacks a truthy selection
entry the resume index is the first such position's index and review is not
entered; if every position has one, review is entered exactly when the number
of distinct keys of the selection object equals the number of positions (so a
snapshot with extra keys does not enter review), and the index setter never
runs. -/
theorem restore_resume_wellformed (positions : List Position)
    (fields smap : List (String × JsVal))
    (hsel : jsLookup fields "selections" = some (JsVal.jobj smap)) :
    (restoreEffect positions (some (some (JsVal.jobj fields)))).threw = false ∧
    (∀ j, specFirstUnvoted smap positions = some j →
      (restoreEffect positions (some (some (JsVal.jobj fields)))).indexSet = some j ∧
      (restoreEffect positions (some (some (JsVal.jobj fields)))).reviewSet = false) ∧
    (specFirstUnvoted smap positions = none →
      (restoreEffect positions (some (some (JsVal.jobj fields)))).indexSet = none ∧
      ((restoreEffect positions (some (some (JsVal.jobj fields)))).reviewSet = true ↔
        ((smap.map Prod.fst).eraseDups).length = positions.length)) := by
  simp only [restoreEffect, jsMember, hsel, jsTruthy, Option.getD, findUnvoted_obj,
    jsKeysLength]
  cases hfu : specFirstUnvoted smap positions with
  | some i =>
    refine ⟨rfl, ?_, ?_⟩
    · intro j hj
      cases hj
      exact ⟨rfl, rfl⟩
    · intro hnone
      exact Option.noConfusion hnone
  | none =>
    by_cases hlen : ((smap.map Prod.fst).eraseDups).length = positions.length
    · dsimp only
      rw [if_pos hlen]
      refine ⟨rfl, ?_, ?_⟩
      · intro j hj
        exact Option.noConfusion hj
      · intro _; exact ⟨rfl, by simp [hlen]⟩
    · dsimp only
      rw [if_neg hlen]
      refine ⟨rfl, ?_, ?_⟩
      · intro j hj
        exact Option.noConfusion hj
      · intro _
        refine ⟨rfl, ?_⟩
        constructor
        · intro hfalse; cases hfalse
        · intro h; exact absurd h hlen

/-- The selection object of a three-position session snapshot in which
positions 0 and 1 are selected and position 2 is not. -/
def smapTwoOfThree : List (String × JsVal) :=
  [("p0", JsVal.jstr "cA"), ("p1", JsVal.jstr "cB")]

/-- The corresponding full snapshot `{selections: ..., locked: ...}`. -/
def snapTwoOfThree : List (String × JsVal) :=
  [("selections", JsVal.jobj smapTwoOfThree),
    ("locked", JsVal.jobj [("p0", JsVal.jbool true), ("p1", JsVal.jbool true)])]

/-- Witness for C6: reloading with positions 0 and 1 selected out of three
resumes at index 2 without entering review. -/
theorem restore_resume_wellformed_witness :
    (restoreEffect [pos0, pos1, pos2] (some (some (JsVal.jobj snapTwoOfThree)))).threw
        = false ∧
    (restoreEffect [pos0, pos1, pos2] (some (some (JsVal.jobj snapTwoOfThree)))).indexSet
        = some 2 ∧
    (restoreEffect [pos0, pos1, pos2] (some (some (JsVal.jobj snapTwoOfThree)))).reviewSet
        = false := by
  have h := restore_resume_wellformed [pos0, pos1, pos2] snapTwoOfThree smapTwoOfThree rfl
  have h2 := h.2.1 2 (by decide)
  exact ⟨h.1, h2.1, h2.2⟩

/-- A one-position snapshot whose selection object also carries a stale
extra key. -/
def snapExtraKey : List (String × JsVal) :=
  [("selections", JsVal.jobj [("p0", JsVal.jstr "cA"), ("zz", JsVal.jstr "cB")])]

/-- C6 counterexample: every position has a selection in the snapshot (the
single position `p0` maps to `cA`), yet the machine does not enter the
review state: the key-count guard `Object.keys(data.selections).length ===
positions.length` fails because of the extra key `zz`, so neither
`setShowReview(true)` nor `setCurrentPositionIndex` runs and the machine
stays at `Voting(0)`. -/
theorem restore_all_selected_extra_key_no_review :
    jsTruthy (jsLookup [("p0", JsVal.jstr "cA"), ("zz", JsVal.jstr "cB")] "p0") = true ∧
    (restoreEffect onePos (some (some (JsVal.jobj snapExtraKey)))).reviewSet = false ∧
    (restoreEffect onePos (some (some (JsVal.jobj snapExtraKey)))).indexSet = none ∧
    (restoreEffect onePos (some (some (JsVal.jobj snapExtraKey)))).threw = false := by
  decide

/-! ### Vote status (src/src/pages/electoral/Vote.tsx line 315)

`const voteStatus = locationDenied || (!locationInfo.latitude &&
!locationInfo.longitude) ? 'invalid' : 'valid';` — the coordinates are
`number | null` state fields, embedded as `Option Int` (`none` for `null`);
JavaScript truthiness makes both `null` and `0` falsy, which is the only
property of the numeric values the expression inspects. -/

/-- JavaScript truthiness of a `number | null` field. -/
def jsNumTruthy : Option Int → Bool
  | none => false
  | some n => n != 0

/-- The `vote_status` value recorded by `handleVotePosition`. -/
def voteStatus (locationDenied : Bool) (latitude longitude : Option Int) : String :=
  if locationDenied || (!(jsNumTruthy latitude) && !(jsNumTruthy longitude)) then
    "invalid"
  else "valid"

/-- The claim's notion of absent location data: access denied, or no
coordinates available. -/
def LocationDataAbsent (locationDenied : Bool) (latitude longitude : Option Int) : Prop :=
  locationDenied = true ∨ (latitude = none ∧ longitude = none)

/-- C9 counterexample: with location access granted and both coordinates
present but equal to 0 (the coordinates are available, so location data is
not absent), the recorded status is still `invalid`, because JavaScript
treats the number 0 as falsy. -/
theorem voteStatus_zero_coordinates_invalid :
    voteStatus false (some 0) (some 0) = "invalid" ∧
    ¬ LocationDataAbsent false (some 0) (some 0) := by
  refine ⟨rfl, ?_⟩
  intro h
  rcases h with h | ⟨h, _⟩ <;> cases h

/-- C9 amended: the recorded status is `invalid` exactly when location access
was denied or both stored coordinates are each null or zero; in all other
cases it is `valid` (and those are the only two values). -/
theorem voteStatus_characterization (d : Bool) (lat lng : Option Int) :
    (voteStatus d lat lng = "invalid" ↔
      (d = true ∨ ((lat = none ∨ lat = some 0) ∧ (lng = none ∨ lng = some 0)))) ∧
    (voteStatus d lat lng = "invalid" ∨ voteStatus d lat lng = "valid") := by
  constructor
  · cases d with
    | true => simp [voteStatus]
    | false =>
      rcases lat with _ | a <;> rcases lng with _ | b
      · simp [voteStatus, jsNumTruthy]
      · by_cases hb : b = 0 <;> simp [voteStatus, jsNumTruthy, hb]
      · by_cases ha : a = 0 <;> simp [voteStatus, jsNumTruthy, ha]
      · by_cases ha : a = 0 <;> by_cases hb : b = 0 <;>
          simp [voteStatus, jsNumTruthy, ha, hb]
  · by_cases h : (d || (!(jsNumTruthy lat) && !(jsNumTruthy lng))) = true
    · left; simp [voteStatus, h]
    · right; simp [voteStatus, h]

end VoteApp
